import Mathlib

/-!
Shallow embedding of the Rubik's cube core of this repository
(src/src/core/cube.js and the gesture-rotation part of src/unnamed/part_000).

Modelling conventions:
* A cubie's logical grid position is an integer triple in {-1,0,1}^3; its
  rendered position is that triple scaled by totalSize = cubeSize + gap
  = 1 + 0.05 = 1.05 = 21/20.  Floating-point world coordinates are embedded
  as exact rationals; tolerance comparisons such as
  abs (pos - value * totalSize) < 0.1 are encoded by cross-multiplying with
  the (positive) denominators so that they are kernel-decidable, and lemmas
  below relate the encoded form back to the literal rational inequality.
* A quarter-turn rotation by direction * 90 degrees about a coordinate axis
  (the commit step of rotateFace, which rounds world positions back to the
  grid and premultiplies the cubie quaternion by the group rotation) is
  embedded as an integer rotation matrix acting on positions and, by left
  multiplication, on orientation matrices.  For direction d in {-1,+1} the
  angle d * pi/2 has cosine 0 and sine d, which gives the matrices below.
* The requestAnimationFrame animation is a cooperative single-threaded
  loop; its observable effect is the commit step, so a move executed from
  the Idle state is embedded as the one-step state transformation
  commitMove, and the enqueue/dequeue behaviour of rotateFace is embedded
  by rotateFaceRequest / completeAnimation on an explicit engine state.
  Callbacks are external effects; a queued request keeps an abstract
  callback tag so that verbatim queueing is expressible.
-/

/-- The three coordinate axes, as in the strings used by cube.js. -/
inductive Axis : Type
  | x
  | y
  | z
deriving DecidableEq

/-- An integer grid position (logical cubie coordinates in {-1,0,1}^3). -/
structure Pos3 : Type where
  x : Int
  y : Int
  z : Int
deriving DecidableEq

/-- The coordinate of a position along an axis. -/
def axisCoord (p : Pos3) (a : Axis) : Int :=
  match a with
  | Axis.x => p.x
  | Axis.y => p.y
  | Axis.z => p.z

/-- A 3x3 integer matrix; used for the 24 cube-symmetry orientations. -/
structure Mat3 : Type where
  m11 : Int
  m12 : Int
  m13 : Int
  m21 : Int
  m22 : Int
  m23 : Int
  m31 : Int
  m32 : Int
  m33 : Int
deriving DecidableEq

/-- The identity orientation. -/
def matId : Mat3 := ⟨1, 0, 0, 0, 1, 0, 0, 0, 1⟩

/-- Matrix product (composition of rotations, left factor applied last). -/
def matMul (A B : Mat3) : Mat3 :=
  ⟨A.m11 * B.m11 + A.m12 * B.m21 + A.m13 * B.m31,
   A.m11 * B.m12 + A.m12 * B.m22 + A.m13 * B.m32,
   A.m11 * B.m13 + A.m12 * B.m23 + A.m13 * B.m33,
   A.m21 * B.m11 + A.m22 * B.m21 + A.m23 * B.m31,
   A.m21 * B.m12 + A.m22 * B.m22 + A.m23 * B.m32,
   A.m21 * B.m13 + A.m22 * B.m23 + A.m23 * B.m33,
   A.m31 * B.m11 + A.m32 * B.m21 + A.m33 * B.m31,
   A.m31 * B.m12 + A.m32 * B.m22 + A.m33 * B.m32,
   A.m31 * B.m13 + A.m32 * B.m23 + A.m33 * B.m33⟩

/-- Matrix acting on a position vector. -/
def mulVec (A : Mat3) (p : Pos3) : Pos3 :=
  ⟨A.m11 * p.x + A.m12 * p.y + A.m13 * p.z,
   A.m21 * p.x + A.m22 * p.y + A.m23 * p.z,
   A.m31 * p.x + A.m32 * p.y + A.m33 * p.z⟩

/-- Rotation by direction * 90 degrees about an axis (three.js convention:
rotation about x maps (y,z) to (y cos - z sin, y sin + z cos); for the
angle d * pi/2 with d in {-1,+1} this is cos = 0, sin = d). -/
def rotMat (a : Axis) (d : Int) : Mat3 :=
  match a with
  | Axis.x => ⟨1, 0, 0, 0, 0, -d, 0, d, 0⟩
  | Axis.y => ⟨0, 0, d, 0, 1, 0, -d, 0, 0⟩
  | Axis.z => ⟨0, -d, 0, d, 0, 0, 0, 0, 1⟩

/-- A move: rotate the layer of cubies with the given coordinate along the
given axis by direction * 90 degrees (cube.js move record
\x7b axis, layer, direction \x7d). -/
structure Move : Type where
  axis : Axis
  layer : Int
  direction : Int
deriving DecidableEq

/-- The direction-negated move (what solve() executes for a history entry:
rotateFace(move.axis, move.layer, -move.direction, false, ...)). -/
def negMove (m : Move) : Move := ⟨m.axis, m.layer, -m.direction⟩

/-- A cubie: its immutable creation position (which determines its sticker
colors, userData.logicalPos in createCubie), its current grid position and
its current orientation. -/
structure Cubie : Type where
  logicalPos : Pos3
  pos : Pos3
  orient : Mat3
deriving DecidableEq

/-- Face-membership test of getCubiesOnFace: the source compares rendered
coordinates, abs (pos - value * totalSize) < 0.1 with totalSize = 1.05;
on grid positions pos = c * totalSize this is
abs (c * 21/20 - v * 21/20) < 1/10, which scaled by 20 is the integer
comparison below. -/
def onFaceCoord (c v : Int) : Bool := |21 * c - 21 * v| < 2

/-- A cubie position lies on face (axis, layer) (the filter of
getCubiesOnFace applied to a grid position). -/
def cubieOnFace (p : Pos3) (a : Axis) (v : Int) : Bool := onFaceCoord (axisCoord p a) v

/-- The commit step of rotateFace for one cubie of the rotated layer:
its position is rotated (the world-position round-off keeps it on the
grid) and its orientation is premultiplied by the group rotation. -/
def rotateCubie (a : Axis) (d : Int) (cb : Cubie) : Cubie :=
  { cb with pos := mulVec (rotMat a d) cb.pos, orient := matMul (rotMat a d) cb.orient }

/-- Effect of one completed rotateFace on a single cubie: only the cubies of
getCubiesOnFace(axis, layer) are rotated, the rest are untouched. -/
def moveStep (m : Move) (cb : Cubie) : Cubie :=
  if cubieOnFace cb.pos m.axis m.layer then rotateCubie m.axis m.direction cb else cb

/-- Effect of one completed rotateFace(axis, layer, direction) on the cubie
list: exactly the cubies of getCubiesOnFace(axis, layer) are rotated. -/
def applyMove (m : Move) (cs : List Cubie) : List Cubie :=
  cs.map (moveStep m)

/-- Effect of a sequence of completed moves, first element first. -/
def applyMoveList (ms : List Move) (cs : List Cubie) : List Cubie :=
  ms.foldl (fun s m => applyMove m s) cs

/-- The grid coordinates used by initCube's three nested loops. -/
def gridCoords : List Int := [-1, 0, 1]

/-- The 27 grid points in initCube's creation order (x outer, y middle,
z inner). -/
def allGridPoints : List Pos3 :=
  gridCoords.flatMap (fun x => gridCoords.flatMap (fun y => gridCoords.map (fun z => ⟨x, y, z⟩)))

/-- The cubie list created by initCube: every grid point holds one cubie at
its canonical position with identity orientation. -/
def initCubies : List Cubie := allGridPoints.map (fun p => ⟨p, p, matId⟩)

/-- getCubiesOnFace(axis, value): the cubies whose rendered coordinate along
the axis is within tolerance of value * totalSize. -/
def getCubiesOnFace (cs : List Cubie) (a : Axis) (v : Int) : List Cubie :=
  cs.filter (fun cb => cubieOnFace cb.pos a v)

-- Basic sanity facts about the embedding.

theorem onFaceCoord_iff (c v : Int) : onFaceCoord c v = true ↔ c = v := by
  unfold onFaceCoord
  rw [decide_eq_true_iff, abs_lt]
  omega

theorem length_initCubies : initCubies.length = 27 := by decide

/-! ## The canonical move table, scramble and the engine state -/

/-- The apostrophe that marks a counter-clockwise move name. -/
def primeChar : Char := '\''

/-- The MOVES table of cube.js (standard notation), key by key. -/
def MOVES : List (String × Move) :=
  [("R", ⟨Axis.x, 1, -1⟩),
   ("R".push primeChar, ⟨Axis.x, 1, 1⟩),
   ("L", ⟨Axis.x, -1, 1⟩),
   ("L".push primeChar, ⟨Axis.x, -1, -1⟩),
   ("U", ⟨Axis.y, 1, -1⟩),
   ("U".push primeChar, ⟨Axis.y, 1, 1⟩),
   ("D", ⟨Axis.y, -1, 1⟩),
   ("D".push primeChar, ⟨Axis.y, -1, -1⟩),
   ("F", ⟨Axis.z, 1, -1⟩),
   ("F".push primeChar, ⟨Axis.z, 1, 1⟩),
   ("B", ⟨Axis.z, -1, 1⟩),
   ("B".push primeChar, ⟨Axis.z, -1, -1⟩)]

/-- Key lookup in the MOVES table (MOVES[moveName] in executeMove). -/
def lookupMove (n : String) : Option Move :=
  (MOVES.find? (fun p => p.1 == n)).map (fun p => p.2)

/-- The six base letters scramble samples from:
Object.keys(MOVES).filter(m => !m.includes(apostrophe)). -/
def baseMoveNames : List String :=
  (MOVES.map (fun p => p.1)).filter (fun n => !(n.contains primeChar))

/-- The 20 scramble names for a given random stream: each step picks one of
the 6 base letters and appends the apostrophe on a coin flip.  A scramble
of length 20 is a choices list of length 20; the claims quantify over all
choice lists. -/
def scrambleNames (choices : List (Fin 6 × Bool)) : List String :=
  choices.map (fun c =>
    let base := baseMoveNames.getD c.1.val ""
    if c.2 then base.push primeChar else base)

/-- The move records a scramble executes: executeMove looks each name up in
MOVES and silently skips unknown names. -/
def scrambleMoveList (choices : List (Fin 6 × Bool)) : List Move :=
  (scrambleNames choices).filterMap lookupMove

/-- The reversal sequence solve() executes: the history snapshot reversed,
each move direction-negated. -/
def solveSequence (history : List Move) : List Move :=
  history.reverse.map negMove

/-- A queued rotateFace request: axis, layer, direction, the record flag and
an abstract tag standing for the callback (callbacks are external
effects; the tag lets verbatim queueing be stated). -/
structure QMove : Type where
  axis : Axis
  layer : Int
  direction : Int
  record : Bool
  callback : Option Nat
deriving DecidableEq

/-- The move of a request. -/
def qmMove (q : QMove) : Move := ⟨q.axis, q.layer, q.direction⟩

/-- The mutable state of the RubiksCube instance: the cubie list, the move
history, the isAnimating flag with the move currently animating (if any)
and the FIFO animationQueue. -/
structure EngineState : Type where
  cubies : List Cubie
  moveHistory : List Move
  isAnimating : Bool
  current : Option QMove
  animationQueue : List QMove
deriving DecidableEq

/-- The synchronous part of rotateFace: while animating the request is
pushed on the animationQueue and the call returns; otherwise the engine
enters the Animating state on this request. -/
def rotateFaceRequest (q : QMove) (st : EngineState) : EngineState :=
  if st.isAnimating then { st with animationQueue := st.animationQueue ++ [q] }
  else { st with isAnimating := true, current := some q }

/-- The completion branch of rotateFace's animate closure (progress = 1):
commit the rotated cubies to the grid, append to the history when the
record flag is set, leave the Animating state, and dequeue and start the
next queued request if the queue is non-empty. -/
def completeAnimation (st : EngineState) : EngineState :=
  match st.current with
  | none => st
  | some q =>
    let cs := applyMove (qmMove q) st.cubies
    let hist := if q.record then st.moveHistory ++ [qmMove q] else st.moveHistory
    match st.animationQueue with
    | [] =>
      { cubies := cs, moveHistory := hist, isAnimating := false,
        current := none, animationQueue := [] }
    | next :: rest =>
      { cubies := cs, moveHistory := hist, isAnimating := true,
        current := some next, animationQueue := rest }

/-- Run n animation completions, returning the moves committed in order. -/
def commitSteps : Nat → EngineState → List Move × EngineState
  | 0, st => ([], st)
  | n + 1, st =>
    match st.current with
    | none => ([], st)
    | some q =>
      let r := commitSteps n (completeAnimation st)
      (qmMove q :: r.1, r.2)

/-- Net effect on the engine state of one move executed from Idle through
commit (rotateFace entered with isAnimating = false and run until its
animate closure completes, with an empty queue throughout). -/
def commitMove (record : Bool) (m : Move) (st : EngineState) : EngineState :=
  { st with cubies := applyMove m st.cubies,
            moveHistory := if record then st.moveHistory ++ [m] else st.moveHistory }

/-- Net effect of a callback-chained sequence of moves (each move is issued
by the completion callback of the previous one, hence from Idle). -/
def runMoveSeq (record : Bool) (ms : List Move) (st : EngineState) : EngineState :=
  ms.foldl (fun s m => commitMove record m s) st

/-- The guard shared by scramble, solve and reset:
this.isAnimating || this.animationQueue.length > 0. -/
def busyGuard (st : EngineState) : Bool :=
  st.isAnimating || decide (st.animationQueue.length > 0)

/-- scramble(): refuse when busy; otherwise execute the 20 sampled moves
sequentially with record = true (executeMove(move, true, ...)). -/
def scrambleRun (choices : List (Fin 6 × Bool)) (st : EngineState) : EngineState :=
  if busyGuard st then st
  else runMoveSeq true (scrambleMoveList choices) st

/-- Which way solve() reported through its onComplete callback: the busy
guard returns without calling it, an empty history calls onComplete(true)
(already solved), a completed reversal calls onComplete(false). -/
inductive SolveOutcome : Type
  | ignored
  | alreadySolved
  | completed
deriving DecidableEq

/-- solve(): refuse when busy; report already-solved on an empty history;
otherwise clear the live history and execute the reversed,
direction-negated snapshot with record = false. -/
def solveRun (st : EngineState) : EngineState × SolveOutcome :=
  if busyGuard st then (st, SolveOutcome.ignored)
  else if st.moveHistory.isEmpty then (st, SolveOutcome.alreadySolved)
  else
    (runMoveSeq false (solveSequence st.moveHistory) { st with moveHistory := [] },
     SolveOutcome.completed)

/-- reset(): refuse when busy; otherwise initCube rebuilds the 27 cubies and
clears the history and the queue. -/
def resetRun (st : EngineState) : EngineState :=
  if busyGuard st then st
  else { st with cubies := initCubies, moveHistory := [], animationQueue := [] }

/-- The engine state right after initCube: solved cube, empty history, Idle,
empty queue. -/
def initEngineState : EngineState :=
  { cubies := initCubies, moveHistory := [], isAnimating := false,
    current := none, animationQueue := [] }

/-! ## The gesture interpreter: snap-to-quarter-turn and classification

Gesture angles are embedded in degrees as exact rationals (the source
accumulates radians; a radian angle corresponds to the degree value
scaled by 180 / pi, and the snap computation round(angle / (pi/2)) becomes
round(degrees / 90)).  Rational comparisons are encoded on numerators and
denominators so that they are kernel-decidable; lemmas relate the encoded
forms to the literal rational statements. -/

/-- Math.round(angle / 90) for a degree angle: round x = floor (x + 1/2),
and for a rational num/den (den > 0) this floor is the integer division
below (Int division is floor division for a positive divisor). -/
def snapTurns (theta : ℚ) : Int :=
  (2 * theta.num + 90 * (theta.den : Int)) / (180 * (theta.den : Int))

/-- The snapped angle of completeFaceRotation, in degrees:
snapAngle = round(current / quarter) * quarter. -/
def snapAngleDeg (theta : ℚ) : Int := 90 * snapTurns theta

/-- finalizeFaceRotation's normalization of the quarter-turn count:
((quarterTurns % 4) + 4) % 4.  JavaScript's remainder has the sign of the
dividend while Lean's Int.emod is non-negative for a positive modulus, but
the two agree on this composite expression. -/
def normalizeTurns (quarterTurns : Int) : Int := ((quarterTurns % 4) + 4) % 4

/-- The moves finalizeFaceRotation appends to the history for a normalized
quarter-turn count: one +1 move for 1, one -1 move for 3 (a 270-degree
turn is minus a quarter), two +1 moves for 2 (a half turn), nothing
for 0. -/
def finalizeRecordedMoves (a : Axis) (l : Int) (quarterTurns : Int) : List Move :=
  let n := normalizeTurns quarterTurns
  if n = 1 then [⟨a, l, 1⟩]
  else if n = 3 then [⟨a, l, -1⟩]
  else if n = 2 then [⟨a, l, 1⟩, ⟨a, l, 1⟩]
  else []

/-- The moves recorded for a released gesture with accumulated degree angle
theta: completeFaceRotation snaps to the nearest multiple of 90 degrees
and finalizeFaceRotation counts the quarter turns of the snapped angle. -/
def gestureRecordedMoves (a : Axis) (l : Int) (theta : ℚ) : List Move :=
  finalizeRecordedMoves a l (snapTurns theta)

/-- A rendered (floating-point) cubie position, embedded as exact
rationals. -/
structure PosQ : Type where
  x : ℚ
  y : ℚ
  z : ℚ

/-- A face selector as produced by the classification: an axis and a layer
(+1 or -1 for the six outer faces). -/
structure FaceSel : Type where
  axis : Axis
  layer : Int
deriving DecidableEq

/-- The tolerance test abs (v - t * (1/20)) < 1/10 on a rational rendered
coordinate v, cross-multiplied by 20 * v.den > 0 into integers; with
t = 21 and t = -21 these are the six face checks of
getCubieTypeAndNeighbors, abs (coord -+ totalSize) < 0.1. -/
def nearCoord (v : ℚ) (t : Int) : Bool :=
  |20 * v.num - t * (v.den : Int)| < 2 * (v.den : Int)

/-- The Y-face checks of getCubieTypeAndNeighbors, in source order. -/
def outerFacesY (p : PosQ) : List FaceSel :=
  (if nearCoord p.y 21 then [⟨Axis.y, 1⟩] else []) ++
  (if nearCoord p.y (-21) then [⟨Axis.y, -1⟩] else [])

/-- The X-face checks of getCubieTypeAndNeighbors, in source order. -/
def outerFacesX (p : PosQ) : List FaceSel :=
  (if nearCoord p.x 21 then [⟨Axis.x, 1⟩] else []) ++
  (if nearCoord p.x (-21) then [⟨Axis.x, -1⟩] else [])

/-- The Z-face checks of getCubieTypeAndNeighbors, in source order. -/
def outerFacesZ (p : PosQ) : List FaceSel :=
  (if nearCoord p.z 21 then [⟨Axis.z, 1⟩] else []) ++
  (if nearCoord p.z (-21) then [⟨Axis.z, -1⟩] else [])

/-- The faces array of getCubieTypeAndNeighbors: the outer faces the given
rendered position touches, checked in source order Y+, Y-, X+, X-,
Z+, Z-. -/
def outerFaces (p : PosQ) : List FaceSel :=
  outerFacesY p ++ outerFacesX p ++ outerFacesZ p

/-- The classification result strings of getCubieTypeAndNeighbors. -/
inductive CubieType : Type
  | center
  | edge
  | corner
deriving DecidableEq

/-- getCubieTypeAndNeighbors: collect the touched outer faces, filter out
the clicked one, and classify by the face count (1 center, 2 edge,
anything else corner). -/
def getCubieTypeAndNeighbors (clickedAxis : Axis) (clickedLayer : Int) (p : PosQ) :
    CubieType × List FaceSel :=
  let faces := outerFaces p
  let neighborFaces := faces.filter (fun f => !(f.axis == clickedAxis && f.layer == clickedLayer))
  let cubieType :=
    if faces.length = 1 then CubieType.center
    else if faces.length = 2 then CubieType.edge
    else CubieType.corner
  (cubieType, neighborFaces)

/-- The horizontal-swipe test Math.abs(deltaX) > Math.abs(deltaY) on
rational screen deltas, cross-multiplied into integers. -/
def isHorizontalSwipe (deltaX deltaY : ℚ) : Bool :=
  |deltaX.num| * (deltaY.den : Int) > |deltaY.num| * (deltaX.den : Int)

/-- selectCornerNeighborBySwipeDirection: null for a missing or empty
neighbor list; a horizontal swipe prefers the neighbor with the vertical
axis, a vertical swipe prefers a neighbor off the vertical axis, and the
first listed neighbor is the fallback. -/
def selectCornerNeighborBySwipeDirection (neighborFaces : Option (List FaceSel))
    (deltaX deltaY : ℚ) : Option FaceSel :=
  match neighborFaces with
  | none => none
  | some faces =>
    if faces.length = 0 then none
    else if isHorizontalSwipe deltaX deltaY then
      match faces.find? (fun f => f.axis == Axis.y) with
      | some f => some f
      | none => faces.head?
    else
      match faces.find? (fun f => !(f.axis == Axis.y)) with
      | some f => some f
      | none => faces.head?

/-! ## Lemmas relating the integer encodings to their rational readings -/

/-- The integer-division form of the snap computation agrees with rounding
the quarter-turn ratio, Math.round(angleDeg / 90). -/
theorem snapTurns_eq_round (theta : ℚ) : snapTurns theta = round (theta / 90) := by
  rw [round_eq]
  have hden : ((theta.den : ℚ)) ≠ 0 := by
    exact_mod_cast theta.den_nz
  have h : theta / 90 + 1 / 2
      = ((2 * theta.num + 90 * (theta.den : Int) : Int) : ℚ) / ((180 * theta.den : ℕ) : ℚ) := by
    conv_lhs => rw [← Rat.num_div_den theta]
    push_cast
    field_simp
    ring
  rw [h, Rat.floor_intCast_div_natCast]
  unfold snapTurns
  push_cast
  rfl

/-- The cross-multiplied tolerance test is the rational tolerance test
abs (v - t/20) < 1/10 of the classification code (coordinates are in
twentieths: totalSize = 21/20, tolerance = 2/20 = 0.1). -/
theorem nearCoord_iff (v : ℚ) (t : Int) :
    nearCoord v t = true ↔ |v - (t : ℚ) / 20| < 1 / 10 := by
  unfold nearCoord
  rw [decide_eq_true_iff]
  have hd : (0 : ℚ) < (v.den : ℚ) := by exact_mod_cast v.pos
  have h20 : (0 : ℚ) < 20 * (v.den : ℚ) := by positivity
  have hnum : (v.num : ℚ) = v * (v.den : ℚ) := (div_eq_iff hd.ne').mp (Rat.num_div_den v)
  have key : 20 * (v.num : ℚ) - (t : ℚ) * (v.den : ℚ)
      = (20 * (v.den : ℚ)) * (v - (t : ℚ) / 20) := by
    rw [hnum]
    ring
  have hscale : (20 * (v.den : ℚ)) * (1 / 10) = 2 * (v.den : ℚ) := by ring
  constructor
  · intro h
    have h' : |20 * (v.num : ℚ) - (t : ℚ) * (v.den : ℚ)| < 2 * (v.den : ℚ) := by
      exact_mod_cast h
    rw [key, abs_mul, abs_of_pos h20] at h'
    rw [← mul_lt_mul_left h20, hscale]
    exact h'
  · intro h
    have h' := (mul_lt_mul_left h20).mpr h
    rw [hscale, ← abs_of_pos h20, ← abs_mul, ← key] at h'
    exact_mod_cast h'

/-- The cross-multiplied swipe test is the screen test
abs deltaX > abs deltaY. -/
theorem isHorizontalSwipe_iff (deltaX deltaY : ℚ) :
    isHorizontalSwipe deltaX deltaY = true ↔ |deltaX| > |deltaY| := by
  unfold isHorizontalSwipe
  rw [decide_eq_true_iff]
  have habs : ∀ q : ℚ, |q| = (|q.num| : ℚ) / (q.den : ℚ) := by
    intro q
    have hq : (0 : ℚ) < (q.den : ℚ) := by exact_mod_cast q.pos
    conv_lhs => rw [← Rat.num_div_den q]
    rw [abs_div, abs_of_pos hq]
  have hx : (0 : ℚ) < (deltaX.den : ℚ) := by exact_mod_cast deltaX.pos
  have hy : (0 : ℚ) < (deltaY.den : ℚ) := by exact_mod_cast deltaY.pos
  have key : |deltaY| < |deltaX|
      ↔ (|deltaY.num| : ℚ) * (deltaX.den : ℚ) < (|deltaX.num| : ℚ) * (deltaY.den : ℚ) := by
    rw [habs deltaX, habs deltaY, div_lt_div_iff₀ hy hx]
  show _ ↔ |deltaY| < |deltaX|
  rw [key]
  constructor
  · intro h
    exact_mod_cast h
  · intro h
    exact_mod_cast h

/-! ## The quarter-turn group algebra of the commit step -/

/-- A move the system can issue has direction +1 or -1 (all MOVES entries,
all gesture-recorded moves, and the negation of any such move). -/
def validDirection (m : Move) : Prop := m.direction = 1 ∨ m.direction = -1

/-- A move the system can issue addresses one of the three layers of its
axis: an outer face (+1 or -1) or the middle slice (0). -/
def validLayer (m : Move) : Prop := m.layer = -1 ∨ m.layer = 0 ∨ m.layer = 1

theorem validDirection_negMove (m : Move) (h : validDirection m) :
    validDirection (negMove m) := by
  rcases h with h | h <;> simp [validDirection, negMove, h]

/-- Rotating a position by d then by -d about the same axis restores it
(for the quarter-turn directions). -/
theorem mulVec_rot_inv (a : Axis) (d : Int) (hd : d = 1 ∨ d = -1) (p : Pos3) :
    mulVec (rotMat a (-d)) (mulVec (rotMat a d) p) = p := by
  rcases hd with rfl | rfl <;> cases a <;> cases p <;>
    simp [mulVec, rotMat]

/-- Composing a quarter-turn orientation update with its negation restores
the orientation. -/
theorem matMul_rot_inv (a : Axis) (d : Int) (hd : d = 1 ∨ d = -1) (M : Mat3) :
    matMul (rotMat a (-d)) (matMul (rotMat a d) M) = M := by
  rcases hd with rfl | rfl <;> cases a <;> cases M <;>
    simp [matMul, rotMat]

/-- A rotation about an axis preserves the coordinate along that axis (the
rotated layer stays the selected layer). -/
theorem axisCoord_mulVec_rot (a : Axis) (d : Int) (p : Pos3) :
    axisCoord (mulVec (rotMat a d) p) a = axisCoord p a := by
  cases a <;> simp [axisCoord, mulVec, rotMat]

/-- The layer-membership test is invariant under the rotation the move
applies. -/
theorem cubieOnFace_rotateCubie (a : Axis) (d : Int) (cb : Cubie) (v : Int) :
    cubieOnFace (rotateCubie a d cb).pos a v = cubieOnFace cb.pos a v := by
  unfold cubieOnFace rotateCubie
  rw [axisCoord_mulVec_rot]

/-- Undoing one cubie's move step with the direction-negated move restores
the cubie exactly (position and orientation). -/
theorem moveStep_negMove (m : Move) (hd : validDirection m) (cb : Cubie) :
    moveStep (negMove m) (moveStep m cb) = cb := by
  unfold moveStep negMove
  by_cases h : cubieOnFace cb.pos m.axis m.layer
  · rw [if_pos h]
    rw [if_pos (by rw [cubieOnFace_rotateCubie]; exact h)]
    show rotateCubie m.axis (-m.direction) (rotateCubie m.axis m.direction cb) = cb
    unfold rotateCubie
    simp only
    cases cb with
    | mk lp pos orient =>
      simp only [Cubie.mk.injEq]
      exact ⟨trivial, mulVec_rot_inv m.axis m.direction hd pos,
        matMul_rot_inv m.axis m.direction hd orient⟩
  · rw [if_neg h, if_neg h]

/-- Undoing a completed move with the direction-negated move restores every
cubie (the move inverse law at the cubie-list level). -/
theorem applyMove_negMove (m : Move) (hd : validDirection m) (cs : List Cubie) :
    applyMove (negMove m) (applyMove m cs) = cs := by
  unfold applyMove
  rw [List.map_map]
  conv_rhs => rw [← List.map_id cs]
  refine List.map_congr_left ?_
  intro cb _
  exact moveStep_negMove m hd cb

/-- Splitting a move sequence splits its effect. -/
theorem applyMoveList_append (l1 l2 : List Move) (cs : List Cubie) :
    applyMoveList (l1 ++ l2) cs = applyMoveList l2 (applyMoveList l1 cs) := by
  unfold applyMoveList
  rw [List.foldl_append]

/-- History-reversal correctness at the cubie-list level: running any move
sequence and then its reversed, direction-negated sequence restores every
cubie. -/
theorem applyMoveList_solveSequence (ms : List Move)
    (h : ∀ m ∈ ms, validDirection m) (cs : List Cubie) :
    applyMoveList (solveSequence ms) (applyMoveList ms cs) = cs := by
  induction ms generalizing cs with
  | nil => rfl
  | cons m rest ih =>
    have hm : validDirection m := h m (List.mem_cons_self m rest)
    have hrest : ∀ x ∈ rest, validDirection x := fun x hx => h x (List.mem_cons_of_mem m hx)
    show applyMoveList (solveSequence (m :: rest)) (applyMoveList rest (applyMove m cs)) = cs
    have hseq : solveSequence (m :: rest) = solveSequence rest ++ [negMove m] := by
      unfold solveSequence
      rw [List.reverse_cons, List.map_append]
      rfl
    rw [hseq, applyMoveList_append, ih hrest (applyMove m cs)]
    show applyMove (negMove m) (applyMove m cs) = cs
    exact applyMove_negMove m hm cs

/-! ## The grid invariant -/

/-- A move the engine can receive is well-formed: a quarter-turn direction
and one of the three layers of its axis. -/
def wellFormedMove (m : Move) : Prop := validDirection m ∧ validLayer m

instance (m : Move) : Decidable (validDirection m) := by
  unfold validDirection; infer_instance

instance (m : Move) : Decidable (validLayer m) := by
  unfold validLayer; infer_instance

instance (m : Move) : Decidable (wellFormedMove m) := by
  unfold wellFormedMove; infer_instance

/-- How a completed move transforms one grid position. -/
def posMap (m : Move) (p : Pos3) : Pos3 :=
  if cubieOnFace p m.axis m.layer then mulVec (rotMat m.axis m.direction) p else p

theorem moveStep_pos (m : Move) (cb : Cubie) : (moveStep m cb).pos = posMap m cb.pos := by
  unfold moveStep posMap rotateCubie
  by_cases h : cubieOnFace cb.pos m.axis m.layer <;> simp [h]

theorem applyMove_map_pos (m : Move) (cs : List Cubie) :
    (applyMove m cs).map Cubie.pos = (cs.map Cubie.pos).map (posMap m) := by
  unfold applyMove
  rw [List.map_map, List.map_map]
  exact List.map_congr_left (fun cb _ => moveStep_pos m cb)

/-- Every well-formed move permutes the 27 grid points (checked case by case
over the 3 axes, 3 layers and 2 directions). -/
theorem posMap_perm (a : Axis) (l d : Int)
    (hl : l = -1 ∨ l = 0 ∨ l = 1) (hd : d = 1 ∨ d = -1) :
    (allGridPoints.map (posMap ⟨a, l, d⟩)).Perm allGridPoints := by
  rcases hl with rfl | rfl | rfl <;> rcases hd with rfl | rfl <;> cases a <;> decide

theorem initCubies_map_pos : initCubies.map Cubie.pos = allGridPoints := by decide

theorem allGridPoints_nodup : allGridPoints.Nodup := by decide

/-- One well-formed move preserves the grid-occupancy invariant. -/
theorem gridPerm_step (m : Move) (hm : wellFormedMove m) (cs : List Cubie)
    (h : (cs.map Cubie.pos).Perm allGridPoints) :
    ((applyMove m cs).map Cubie.pos).Perm allGridPoints := by
  rw [applyMove_map_pos]
  refine (h.map (posMap m)).trans ?_
  exact posMap_perm m.axis m.layer m.direction hm.2 hm.1

/-- The grid-occupancy invariant holds after any well-formed move
sequence. -/
theorem gridPerm_applyMoveList (ms : List Move) (h : ∀ m ∈ ms, wellFormedMove m)
    (cs : List Cubie) (hcs : (cs.map Cubie.pos).Perm allGridPoints) :
    ((applyMoveList ms cs).map Cubie.pos).Perm allGridPoints := by
  induction ms generalizing cs with
  | nil => exact hcs
  | cons m rest ih =>
    show ((applyMoveList rest (applyMove m cs)).map Cubie.pos).Perm allGridPoints
    exact ih (fun x hx => h x (List.mem_cons_of_mem m hx)) (applyMove m cs)
      (gridPerm_step m (h m (List.mem_cons_self m rest)) cs hcs)

/-- Membership in getCubiesOnFace is exactly membership in the cubie list
with the matching grid coordinate (for grid positions the tolerance test
is coordinate equality). -/
theorem mem_getCubiesOnFace (cs : List Cubie) (a : Axis) (v : Int) (cb : Cubie) :
    cb ∈ getCubiesOnFace cs a v ↔ cb ∈ cs ∧ axisCoord cb.pos a = v := by
  unfold getCubiesOnFace cubieOnFace
  rw [List.mem_filter, onFaceCoord_iff]

/-- Under the grid-occupancy invariant each face selector with a layer in
\x7b-1,0,1\x7d selects exactly 9 cubies. -/
theorem getCubiesOnFace_length (cs : List Cubie) (a : Axis) (v : Int)
    (h : (cs.map Cubie.pos).Perm allGridPoints) (hv : v = -1 ∨ v = 0 ∨ v = 1) :
    (getCubiesOnFace cs a v).length = 9 := by
  unfold getCubiesOnFace
  rw [← List.countP_eq_length_filter]
  have h1 : cs.countP (fun cb => cubieOnFace cb.pos a v)
      = (cs.map Cubie.pos).countP (fun p => cubieOnFace p a v) := by
    rw [List.countP_map]
    rfl
  rw [h1, h.countP_eq]
  rcases hv with rfl | rfl | rfl <;> cases a <;> decide

/-! ## Scramble moves are well-formed table moves -/

theorem lookupMove_mem (n : String) (m : Move) (h : lookupMove n = some m) :
    m ∈ MOVES.map Prod.snd := by
  unfold lookupMove at h
  cases hf : MOVES.find? (fun p => p.1 == n) with
  | none => rw [hf] at h; cases h
  | some pr =>
    rw [hf] at h
    simp only [Option.map_some'] at h
    cases h
    exact List.mem_map_of_mem _ (List.mem_of_find?_eq_some hf)

theorem MOVES_snd_wellFormed : ∀ m ∈ MOVES.map Prod.snd, wellFormedMove m := by
  decide

theorem scrambleMoveList_wellFormed (choices : List (Fin 6 × Bool)) :
    ∀ m ∈ scrambleMoveList choices, wellFormedMove m := by
  intro m hm
  unfold scrambleMoveList at hm
  obtain ⟨n, _, hn⟩ := List.mem_filterMap.mp hm
  exact MOVES_snd_wellFormed m (lookupMove_mem n m hn)

/-! ## Engine-state bookkeeping -/

theorem commitMove_cubies (record : Bool) (m : Move) (st : EngineState) :
    (commitMove record m st).cubies = applyMove m st.cubies := rfl

theorem runMoveSeq_cubies (record : Bool) (ms : List Move) (st : EngineState) :
    (runMoveSeq record ms st).cubies = applyMoveList ms st.cubies := by
  induction ms generalizing st with
  | nil => rfl
  | cons m rest ih => exact ih (commitMove record m st)

theorem runMoveSeq_isAnimating (record : Bool) (ms : List Move) (st : EngineState) :
    (runMoveSeq record ms st).isAnimating = st.isAnimating := by
  induction ms generalizing st with
  | nil => rfl
  | cons m rest ih => exact ih (commitMove record m st)

theorem runMoveSeq_animationQueue (record : Bool) (ms : List Move) (st : EngineState) :
    (runMoveSeq record ms st).animationQueue = st.animationQueue := by
  induction ms generalizing st with
  | nil => rfl
  | cons m rest ih => exact ih (commitMove record m st)

/-- Moves executed with record = false never touch the history. -/
theorem runMoveSeq_false_moveHistory (ms : List Move) (st : EngineState) :
    (runMoveSeq false ms st).moveHistory = st.moveHistory := by
  induction ms generalizing st with
  | nil => rfl
  | cons m rest ih =>
    rw [show runMoveSeq false (m :: rest) st = runMoveSeq false rest (commitMove false m st) from rfl]
    rw [ih (commitMove false m st)]
    rfl

/-- Moves executed with record = true append to the history in execution
order. -/
theorem runMoveSeq_true_moveHistory (ms : List Move) (st : EngineState) :
    (runMoveSeq true ms st).moveHistory = st.moveHistory ++ ms := by
  induction ms generalizing st with
  | nil => simp [runMoveSeq]
  | cons m rest ih =>
    rw [show runMoveSeq true (m :: rest) st = runMoveSeq true rest (commitMove true m st) from rfl]
    rw [ih (commitMove true m st)]
    show (if true then st.moveHistory ++ [m] else st.moveHistory) ++ rest = st.moveHistory ++ m :: rest
    simp

theorem busyGuard_init : busyGuard initEngineState = false := rfl

/-! ## Classification helpers -/

/-- A coordinate cannot be within tolerance of both opposite faces. -/
theorem not_nearCoord_both (v : ℚ) : ¬(nearCoord v 21 = true ∧ nearCoord v (-21) = true) := by
  rintro ⟨h1, h2⟩
  unfold nearCoord at h1 h2
  rw [decide_eq_true_iff, abs_lt] at h1 h2
  have hd : (0 : Int) < (v.den : Int) := by exact_mod_cast v.pos
  omega

theorem mem_pair_segment {α : Type} (c1 c2 : Bool) (a b f : α)
    (h : f ∈ (if c1 then [a] else []) ++ (if c2 then [b] else [])) : f = a ∨ f = b := by
  rcases List.mem_append.mp h with h' | h' <;> cases c1 <;> cases c2 <;> simp_all

theorem pair_segment_nodup {α : Type} (c1 c2 : Bool) (a b : α) (hne : a ≠ b) :
    ((if c1 then [a] else []) ++ (if c2 then [b] else [])).Nodup := by
  cases c1 <;> cases c2 <;> simp_all

theorem pair_segment_length_le {α : Type} (c1 c2 : Bool) (a b : α)
    (h : ¬(c1 = true ∧ c2 = true)) :
    ((if c1 then [a] else []) ++ (if c2 then [b] else [])).length ≤ 1 := by
  cases c1 <;> cases c2 <;> simp_all

theorem outerFacesY_axis (p : PosQ) : ∀ f ∈ outerFacesY p, f.axis = Axis.y := by
  intro f hf
  rcases mem_pair_segment _ _ _ _ f hf with rfl | rfl <;> rfl

theorem outerFacesX_axis (p : PosQ) : ∀ f ∈ outerFacesX p, f.axis = Axis.x := by
  intro f hf
  rcases mem_pair_segment _ _ _ _ f hf with rfl | rfl <;> rfl

theorem outerFacesZ_axis (p : PosQ) : ∀ f ∈ outerFacesZ p, f.axis = Axis.z := by
  intro f hf
  rcases mem_pair_segment _ _ _ _ f hf with rfl | rfl <;> rfl

theorem outerFacesY_length_le (p : PosQ) : (outerFacesY p).length ≤ 1 := by
  unfold outerFacesY
  exact pair_segment_length_le _ _ _ _ (not_nearCoord_both p.y)

theorem outerFacesX_length_le (p : PosQ) : (outerFacesX p).length ≤ 1 := by
  unfold outerFacesX
  exact pair_segment_length_le _ _ _ _ (not_nearCoord_both p.x)

theorem outerFacesZ_length_le (p : PosQ) : (outerFacesZ p).length ≤ 1 := by
  unfold outerFacesZ
  exact pair_segment_length_le _ _ _ _ (not_nearCoord_both p.z)

/-- A rendered position touches at most three outer faces (at most one per
axis). -/
theorem outerFaces_length_le (p : PosQ) : (outerFaces p).length ≤ 3 := by
  unfold outerFaces
  rw [List.length_append, List.length_append]
  have hy := outerFacesY_length_le p
  have hx := outerFacesX_length_le p
  have hz := outerFacesZ_length_le p
  omega

theorem outerFacesY_nodup (p : PosQ) : (outerFacesY p).Nodup := by
  unfold outerFacesY
  exact pair_segment_nodup _ _ _ _ (by decide)

theorem outerFacesX_nodup (p : PosQ) : (outerFacesX p).Nodup := by
  unfold outerFacesX
  exact pair_segment_nodup _ _ _ _ (by decide)

theorem outerFacesZ_nodup (p : PosQ) : (outerFacesZ p).Nodup := by
  unfold outerFacesZ
  exact pair_segment_nodup _ _ _ _ (by decide)

/-- The faces array never lists a selector twice. -/
theorem outerFaces_nodup (p : PosQ) : (outerFaces p).Nodup := by
  unfold outerFaces
  refine List.Nodup.append ?_ (outerFacesZ_nodup p) ?_
  · refine List.Nodup.append (outerFacesY_nodup p) (outerFacesX_nodup p) ?_
    intro f hfy hfx
    have h1 := outerFacesY_axis p f hfy
    have h2 := outerFacesX_axis p f hfx
    rw [h1] at h2
    cases h2
  · intro f hfyx hfz
    have h2 := outerFacesZ_axis p f hfz
    rcases List.mem_append.mp hfyx with h' | h'
    · have h1 := outerFacesY_axis p f h'
      rw [h1] at h2
      cases h2
    · have h1 := outerFacesX_axis p f h'
      rw [h1] at h2
      cases h2

/-- The neighbor filter of getCubieTypeAndNeighbors removes exactly the
clicked selector. -/
theorem neighborFaces_eq_erase (ca : Axis) (cl : Int) (p : PosQ) :
    (outerFaces p).filter (fun f => !(f.axis == ca && f.layer == cl))
      = (outerFaces p).erase ⟨ca, cl⟩ := by
  rw [List.Nodup.erase_eq_filter (outerFaces_nodup p)]
  apply List.filter_congr
  intro f _
  cases f with
  | mk fa fl =>
    apply Bool.eq_iff_iff.mpr
    simp [FaceSel.mk.injEq]
    tauto

/-! ## First-match characterization for the corner-neighbor search -/

/-- f is the first element of the list satisfying p. -/
inductive FirstWith {α : Type} (p : α → Bool) : List α → α → Prop
  | head (a : α) (l : List α) (h : p a = true) : FirstWith p (a :: l) a
  | tail (a : α) (l : List α) (f : α) (h : p a = false) (ht : FirstWith p l f) :
      FirstWith p (a :: l) f

theorem find?_of_firstWith {α : Type} (p : α → Bool) (l : List α) (f : α)
    (h : FirstWith p l f) : l.find? p = some f := by
  induction h with
  | head a l h => exact List.find?_cons_of_pos l h
  | tail a l f h ht ih => rw [List.find?_cons_of_neg l (by simp [h]), ih]


/-! ## Claim theorems -/

/-- Claim C3: for every move applied to any cubie configuration, applying
the move and then its direction-negated move restores every cubie's
position and orientation; direction negation keeps the axis and layer;
and in the MOVES table each primed name is exactly the direction-negated
move of its base letter. -/
theorem moveInverseLaw (cs : List Cubie) (m : Move) (hd : validDirection m) :
    applyMove (negMove m) (applyMove m cs) = cs ∧
    (∀ m' : Move, (negMove m').axis = m'.axis ∧ (negMove m').layer = m'.layer ∧
      (negMove m').direction = -m'.direction) ∧
    (lookupMove ("R".push primeChar) = (lookupMove "R").map negMove ∧
     lookupMove ("L".push primeChar) = (lookupMove "L").map negMove ∧
     lookupMove ("U".push primeChar) = (lookupMove "U").map negMove ∧
     lookupMove ("D".push primeChar) = (lookupMove "D").map negMove ∧
     lookupMove ("F".push primeChar) = (lookupMove "F").map negMove ∧
     lookupMove ("B".push primeChar) = (lookupMove "B").map negMove) := by
  refine ⟨applyMove_negMove m hd cs, fun m' => ⟨rfl, rfl, rfl⟩, ?_⟩
  decide

/-- Witness for C3 at a concrete input (the R move on the solved cube). -/
theorem moveInverseLaw_witness :
    applyMove (negMove ⟨Axis.x, 1, -1⟩) (applyMove ⟨Axis.x, 1, -1⟩ initCubies) = initCubies :=
  (moveInverseLaw initCubies ⟨Axis.x, 1, -1⟩ (Or.inr rfl)).1

/-- Claim C2: after any sequence of completed well-formed moves from the
initialized cube, the 27 cubie positions are exactly the 27 distinct grid
points (each occupied once), and getCubiesOnFace(axis, layer) returns
exactly the cubies whose coordinate along the axis equals the layer
(9 of them for each of the three layers of each axis). -/
theorem gridInvariant (ms : List Move) (h : ∀ m ∈ ms, wellFormedMove m) :
    ((applyMoveList ms initCubies).map Cubie.pos).Perm allGridPoints ∧
    ((applyMoveList ms initCubies).map Cubie.pos).Nodup ∧
    (∀ (a : Axis) (v : Int) (cb : Cubie),
      cb ∈ getCubiesOnFace (applyMoveList ms initCubies) a v ↔
        cb ∈ applyMoveList ms initCubies ∧ axisCoord cb.pos a = v) ∧
    (∀ (a : Axis) (v : Int), v = -1 ∨ v = 0 ∨ v = 1 →
      (getCubiesOnFace (applyMoveList ms initCubies) a v).length = 9) := by
  have hperm : ((applyMoveList ms initCubies).map Cubie.pos).Perm allGridPoints := by
    apply gridPerm_applyMoveList ms h initCubies
    rw [initCubies_map_pos]
  refine ⟨hperm, hperm.nodup_iff.mpr allGridPoints_nodup, ?_, ?_⟩
  · intro a v cb
    exact mem_getCubiesOnFace (applyMoveList ms initCubies) a v cb
  · intro a v hv
    exact getCubiesOnFace_length (applyMoveList ms initCubies) a v hperm hv

/-- Witness for C2 at a concrete input (one R move from the solved cube). -/
theorem gridInvariant_witness :
    (((applyMoveList [⟨Axis.x, 1, -1⟩] initCubies).map Cubie.pos).Perm allGridPoints) ∧
    (getCubiesOnFace (applyMoveList [⟨Axis.x, 1, -1⟩] initCubies) Axis.y 1).length = 9 := by
  have h := gridInvariant [⟨Axis.x, 1, -1⟩] (by decide)
  exact ⟨h.1, h.2.2.2 Axis.y 1 (by decide)⟩

/-- Claim C1: executing any recorded move sequence from the solved state and
then the reversed, direction-negated sequence (what solve() runs) returns
every cubie to the solved state; in particular scramble() followed by
solve() restores the solved cube for every choice of the 20 random
moves. -/
theorem scrambleThenSolveRestoresSolved (ms : List Move)
    (h : ∀ m ∈ ms, validDirection m) :
    applyMoveList (solveSequence ms) (applyMoveList ms initCubies) = initCubies ∧
    ∀ choices : List (Fin 6 × Bool),
      (solveRun (scrambleRun choices initEngineState)).1.cubies = initCubies := by
  refine ⟨applyMoveList_solveSequence ms h initCubies, ?_⟩
  intro choices
  have hsc : scrambleRun choices initEngineState
      = runMoveSeq true (scrambleMoveList choices) initEngineState := by
    unfold scrambleRun
    rw [busyGuard_init]
    rfl
  set st1 := runMoveSeq true (scrambleMoveList choices) initEngineState with hst1
  have h1 : st1.isAnimating = false := by
    rw [hst1, runMoveSeq_isAnimating]
    rfl
  have h2 : st1.animationQueue = [] := by
    rw [hst1, runMoveSeq_animationQueue]
    rfl
  have h3 : st1.moveHistory = scrambleMoveList choices := by
    rw [hst1, runMoveSeq_true_moveHistory]
    rfl
  have h4 : st1.cubies = applyMoveList (scrambleMoveList choices) initCubies := by
    rw [hst1, runMoveSeq_cubies]
    rfl
  have hguard : busyGuard st1 = false := by
    unfold busyGuard
    rw [h1, h2]
    rfl
  rw [hsc]
  unfold solveRun
  rw [hguard]
  by_cases hE : scrambleMoveList choices = []
  · have hEmpty : st1.moveHistory.isEmpty = true := by
      rw [h3, hE]
      rfl
    rw [if_neg (by simp), if_pos (by rw [hEmpty])]
    rw [h4, hE]
    rfl
  · have hEmpty : ¬ st1.moveHistory.isEmpty = true := by
      rw [h3]
      simpa using hE
    rw [if_neg (by simp), if_neg (by rw [List.isEmpty_iff]; rw [List.isEmpty_iff] at hEmpty; simpa using hEmpty)]
    show (runMoveSeq false (solveSequence st1.moveHistory) { st1 with moveHistory := [] }).cubies
      = initCubies
    rw [runMoveSeq_cubies]
    show applyMoveList (solveSequence st1.moveHistory) st1.cubies = initCubies
    rw [h3, h4]
    exact applyMoveList_solveSequence (scrambleMoveList choices)
      (fun m hm => (scrambleMoveList_wellFormed choices m hm).1) initCubies

/-- Witness for C1 at a concrete input (a one-move history and a one-move
scramble choice list). -/
theorem scrambleThenSolveRestoresSolved_witness :
    applyMoveList (solveSequence [⟨Axis.y, 1, -1⟩]) (applyMoveList [⟨Axis.y, 1, -1⟩] initCubies)
      = initCubies ∧
    (solveRun (scrambleRun [(⟨0, by decide⟩, false)] initEngineState)).1.cubies = initCubies := by
  have h := scrambleThenSolveRestoresSolved [⟨Axis.y, 1, -1⟩] (by decide)
  exact ⟨h.1, h.2 [(⟨0, by decide⟩, false)]⟩

/-- Claim C6: scramble(), solve() and reset() invoked while a rotation is
animating or while the animation queue is non-empty are silent no-ops:
the state (cubie grid, history, queue) is unchanged and solve() does not
even invoke its completion callback. -/
theorem busyRequestsIgnored (st : EngineState) (choices : List (Fin 6 × Bool))
    (h : st.isAnimating = true ∨ st.animationQueue ≠ []) :
    scrambleRun choices st = st ∧
    solveRun st = (st, SolveOutcome.ignored) ∧
    resetRun st = st := by
  have hguard : busyGuard st = true := by
    unfold busyGuard
    rcases h with h | h
    · rw [h]
      rfl
    · have hlen : st.animationQueue.length > 0 := List.length_pos.mpr h
      simp [hlen]
  refine ⟨?_, ?_, ?_⟩
  · unfold scrambleRun
    rw [hguard]
    rfl
  · unfold solveRun
    rw [hguard]
    rfl
  · unfold resetRun
    rw [hguard]
    rfl

/-- Witness for C6 at a concrete busy state. -/
theorem busyRequestsIgnored_witness :
    scrambleRun [] { initEngineState with isAnimating := true } = { initEngineState with isAnimating := true } ∧
    solveRun { initEngineState with isAnimating := true } = ({ initEngineState with isAnimating := true }, SolveOutcome.ignored) ∧
    resetRun { initEngineState with isAnimating := true } = { initEngineState with isAnimating := true } :=
  busyRequestsIgnored { initEngineState with isAnimating := true } [] (Or.inl rfl)

/-- Claim C7: solve() on an idle engine reports the already-solved outcome
and changes nothing when the history is empty; on a non-empty history it
reports the distinct completion outcome, executes the reversal with
record = false, and leaves the history empty afterwards (the solving
moves are never re-recorded). -/
theorem solveHistoryHandling (st : EngineState)
    (hA : st.isAnimating = false) (hQ : st.animationQueue = []) :
    (st.moveHistory = [] → solveRun st = (st, SolveOutcome.alreadySolved)) ∧
    (st.moveHistory ≠ [] →
      (solveRun st).2 = SolveOutcome.completed ∧
      (solveRun st).1.moveHistory = [] ∧
      (solveRun st).1.cubies = applyMoveList (solveSequence st.moveHistory) st.cubies) ∧
    SolveOutcome.alreadySolved ≠ SolveOutcome.completed := by
  have hguard : busyGuard st = false := by
    unfold busyGuard
    rw [hA, hQ]
    rfl
  refine ⟨?_, ?_, by decide⟩
  · intro hH
    unfold solveRun
    rw [hguard, if_neg (by simp), if_pos (by rw [hH]; rfl)]
  · intro hH
    unfold solveRun
    rw [hguard, if_neg (by simp), if_neg (by simpa using hH)]
    refine ⟨rfl, ?_, ?_⟩
    · show (runMoveSeq false (solveSequence st.moveHistory) { st with moveHistory := [] }).moveHistory = []
      rw [runMoveSeq_false_moveHistory]
    · show (runMoveSeq false (solveSequence st.moveHistory) { st with moveHistory := [] }).cubies
        = applyMoveList (solveSequence st.moveHistory) st.cubies
      rw [runMoveSeq_cubies]

/-- Witness for C7: the solved idle engine reports already-solved, and a
one-move history reports completion with an empty history afterwards. -/
theorem solveHistoryHandling_witness :
    solveRun initEngineState = (initEngineState, SolveOutcome.alreadySolved) ∧
    (solveRun { initEngineState with moveHistory := [⟨Axis.x, 1, -1⟩] }).2 = SolveOutcome.completed ∧
    (solveRun { initEngineState with moveHistory := [⟨Axis.x, 1, -1⟩] }).1.moveHistory = [] := by
  have ha := solveHistoryHandling initEngineState rfl rfl
  have hb := solveHistoryHandling { initEngineState with moveHistory := [⟨Axis.x, 1, -1⟩] } rfl rfl
  have hb2 := hb.2.1 (by decide)
  exact ⟨ha.1 rfl, hb2.1, hb2.2.1⟩

/-- Claim C4: at most one rotation animates at a time (a request on a busy
engine only queues and leaves the animating move untouched), a request
issued while animating is enqueued verbatim, and queued moves commit
strictly in FIFO request order: requesting m1, m2, m3 while m0 animates
commits exactly m0, m1, m2, m3 in that order. -/
theorem rotateFaceQueueFifo (st : EngineState) (q0 q1 q2 q3 : QMove)
    (hIdle : st.isAnimating = false) (hQ : st.animationQueue = []) :
    (∀ (s : EngineState) (q : QMove), s.isAnimating = true →
      rotateFaceRequest q s = { s with animationQueue := s.animationQueue ++ [q] } ∧
      (rotateFaceRequest q s).current = s.current) ∧
    ((rotateFaceRequest q0 st).isAnimating = true ∧
     (rotateFaceRequest q0 st).current = some q0) ∧
    ((rotateFaceRequest q3 (rotateFaceRequest q2 (rotateFaceRequest q1 (rotateFaceRequest q0 st)))).current = some q0 ∧
     (rotateFaceRequest q3 (rotateFaceRequest q2 (rotateFaceRequest q1 (rotateFaceRequest q0 st)))).animationQueue = [q1, q2, q3]) ∧
    ((commitSteps 4 (rotateFaceRequest q3 (rotateFaceRequest q2 (rotateFaceRequest q1 (rotateFaceRequest q0 st))))).1
       = [qmMove q0, qmMove q1, qmMove q2, qmMove q3] ∧
     (commitSteps 4 (rotateFaceRequest q3 (rotateFaceRequest q2 (rotateFaceRequest q1 (rotateFaceRequest q0 st))))).2.isAnimating = false ∧
     (commitSteps 4 (rotateFaceRequest q3 (rotateFaceRequest q2 (rotateFaceRequest q1 (rotateFaceRequest q0 st))))).2.animationQueue = []) ∧
    (q0.record = true → q1.record = true → q2.record = true → q3.record = true →
      (commitSteps 4 (rotateFaceRequest q3 (rotateFaceRequest q2 (rotateFaceRequest q1 (rotateFaceRequest q0 st))))).2.moveHistory
        = st.moveHistory ++ [qmMove q0, qmMove q1, qmMove q2, qmMove q3]) := by
  refine ⟨?_, ?_, ?_, ?_, ?_⟩
  · intro s q hs
    unfold rotateFaceRequest
    rw [hs]
    exact ⟨rfl, rfl⟩
  · unfold rotateFaceRequest
    rw [hIdle]
    exact ⟨rfl, rfl⟩
  · unfold rotateFaceRequest
    rw [hIdle]
    simp [hQ]
  · unfold rotateFaceRequest
    rw [hIdle]
    simp [hQ, commitSteps, completeAnimation]
  · intro h0 h1 h2 h3
    unfold rotateFaceRequest
    rw [hIdle]
    simp [hQ, commitSteps, completeAnimation, h0, h1, h2, h3]

/-- Witness for C4: four concrete requests on the freshly initialized engine
commit in FIFO order. -/
theorem rotateFaceQueueFifo_witness :
    (commitSteps 4 (rotateFaceRequest ⟨Axis.z, 1, -1, true, none⟩
        (rotateFaceRequest ⟨Axis.y, 0, 1, true, some 2⟩
          (rotateFaceRequest ⟨Axis.x, -1, 1, false, some 1⟩
            (rotateFaceRequest ⟨Axis.x, 1, -1, true, none⟩ initEngineState))))).1
      = [⟨Axis.x, 1, -1⟩, ⟨Axis.x, -1, 1⟩, ⟨Axis.y, 0, 1⟩, ⟨Axis.z, 1, -1⟩] :=
  (rotateFaceQueueFifo initEngineState ⟨Axis.x, 1, -1, true, none⟩
    ⟨Axis.x, -1, 1, false, some 1⟩ ⟨Axis.y, 0, 1, true, some 2⟩
    ⟨Axis.z, 1, -1, true, none⟩ rfl rfl).2.2.2.1.1

/-- Claim C5: on release the accumulated angle snaps to the nearest multiple
of 90 degrees (no other multiple is closer), and the recording matches the
net quarter turns: one +1 move for a net quarter, one -1 move for a net
three-quarter (minus a quarter), two +1 moves for a net half, nothing for
a net zero; concretely 40 degrees snaps to 0 (no move), 50 to 90 (one +1
move), 185 to 180 (two +1 moves) and -100 to -90 (one -1 move). -/
theorem snapRecordingCorrect (theta : ℚ) (k : Int) :
    (snapAngleDeg theta = 90 * round (theta / 90) ∧
     |(snapAngleDeg theta : ℚ) - theta| ≤ |90 * (k : ℚ) - theta|) ∧
    (∀ (a : Axis) (l : Int),
      (normalizeTurns (snapTurns theta) = 1 → gestureRecordedMoves a l theta = [⟨a, l, 1⟩]) ∧
      (normalizeTurns (snapTurns theta) = 3 → gestureRecordedMoves a l theta = [⟨a, l, -1⟩]) ∧
      (normalizeTurns (snapTurns theta) = 2 →
        gestureRecordedMoves a l theta = [⟨a, l, 1⟩, ⟨a, l, 1⟩]) ∧
      (normalizeTurns (snapTurns theta) = 0 → gestureRecordedMoves a l theta = [])) ∧
    (∀ (a : Axis) (l : Int),
      snapAngleDeg ((40 : Int) : ℚ) = 0 ∧ gestureRecordedMoves a l ((40 : Int) : ℚ) = [] ∧
      snapAngleDeg ((50 : Int) : ℚ) = 90 ∧
      gestureRecordedMoves a l ((50 : Int) : ℚ) = [⟨a, l, 1⟩] ∧
      snapAngleDeg ((185 : Int) : ℚ) = 180 ∧
      gestureRecordedMoves a l ((185 : Int) : ℚ) = [⟨a, l, 1⟩, ⟨a, l, 1⟩] ∧
      snapAngleDeg ((-100 : Int) : ℚ) = -90 ∧
      gestureRecordedMoves a l ((-100 : Int) : ℚ) = [⟨a, l, -1⟩]) := by
  have hsnap : snapAngleDeg theta = 90 * round (theta / 90) := by
    unfold snapAngleDeg
    rw [snapTurns_eq_round]
  refine ⟨⟨hsnap, ?_⟩, ?_, ?_⟩
  · have h := round_le (theta / 90) k
    have e1 : |(snapAngleDeg theta : ℚ) - theta|
        = 90 * |theta / 90 - (round (theta / 90) : ℚ)| := by
      rw [hsnap]
      have harg : ((90 * round (theta / 90) : Int) : ℚ) - theta
          = -(90 * (theta / 90 - (round (theta / 90) : ℚ))) := by
        push_cast
        ring
      rw [harg, abs_neg, abs_mul, abs_of_pos (by norm_num : (0 : ℚ) < (90 : ℚ))]
    have e2 : |90 * (k : ℚ) - theta| = 90 * |theta / 90 - (k : ℚ)| := by
      have harg : 90 * (k : ℚ) - theta = -(90 * (theta / 90 - (k : ℚ))) := by
        ring
      rw [harg, abs_neg, abs_mul, abs_of_pos (by norm_num : (0 : ℚ) < (90 : ℚ))]
    rw [e1, e2]
    linarith
  · intro a l
    refine ⟨?_, ?_, ?_, ?_⟩ <;> intro hn <;>
      unfold gestureRecordedMoves finalizeRecordedMoves <;>
      rw [show normalizeTurns (snapTurns theta) = _ from hn] <;> rfl
  · intro a l
    have h40 : snapTurns ((40 : Int) : ℚ) = 0 := by decide
    have h50 : snapTurns ((50 : Int) : ℚ) = 1 := by decide
    have h185 : snapTurns ((185 : Int) : ℚ) = 2 := by decide
    have hm100 : snapTurns ((-100 : Int) : ℚ) = -1 := by decide
    refine ⟨?_, ?_, ?_, ?_, ?_, ?_, ?_, ?_⟩ <;>
      first
        | (unfold snapAngleDeg
           first
             | rw [h40]
             | rw [h50]
             | rw [h185]
             | rw [hm100])
        | (unfold gestureRecordedMoves finalizeRecordedMoves
           first
             | rw [h40]
             | rw [h50]
             | rw [h185]
             | rw [hm100])
    all_goals rfl

/-- Witness for C5: a 90-degree gesture records exactly one +1 move. -/
theorem snapRecordingCorrect_witness :
    gestureRecordedMoves Axis.x 1 ((90 : Int) : ℚ) = [⟨Axis.x, 1, 1⟩] :=
  ((snapRecordingCorrect ((90 : Int) : ℚ) 1).2.1 Axis.x 1).1 (by decide)

/-- Unfolding of the corner-neighbor selection on a non-empty list. -/
theorem selectCorner_eq (faces : List FaceSel) (hne : faces ≠ []) (deltaX deltaY : ℚ) :
    selectCornerNeighborBySwipeDirection (some faces) deltaX deltaY =
      if isHorizontalSwipe deltaX deltaY then
        match faces.find? (fun f => f.axis == Axis.y) with
        | some f => some f
        | none => faces.head?
      else
        match faces.find? (fun f => !(f.axis == Axis.y)) with
        | some f => some f
        | none => faces.head? := by
  unfold selectCornerNeighborBySwipeDirection
  exact if_neg (fun h0 => hne (List.length_eq_zero.mp h0))

/-- Claim C8: corner-neighbor selection is a pure function of the neighbor
list and the screen displacement; a missing or empty list yields null;
otherwise the result is one of the listed neighbors, a mostly-horizontal
swipe picks the first neighbor on the vertical axis (falling back to the
first listed one when no vertical-axis neighbor exists), and a
non-horizontal swipe picks the first neighbor off the vertical axis
(falling back to the first listed one when every neighbor has the
vertical axis). -/
theorem cornerNeighborSelection (faces : List FaceSel) (hne : faces ≠ [])
    (deltaX deltaY : ℚ) :
    (∀ dx dy : ℚ, selectCornerNeighborBySwipeDirection none dx dy = none ∧
      selectCornerNeighborBySwipeDirection (some []) dx dy = none) ∧
    (∃ f ∈ faces, selectCornerNeighborBySwipeDirection (some faces) deltaX deltaY = some f) ∧
    (|deltaX| > |deltaY| →
      (∀ f : FaceSel, FirstWith (fun f => f.axis == Axis.y) faces f →
        selectCornerNeighborBySwipeDirection (some faces) deltaX deltaY = some f) ∧
      ((∀ f ∈ faces, f.axis ≠ Axis.y) →
        selectCornerNeighborBySwipeDirection (some faces) deltaX deltaY = faces.head?)) ∧
    (¬(|deltaX| > |deltaY|) →
      (∀ f : FaceSel, FirstWith (fun f => !(f.axis == Axis.y)) faces f →
        selectCornerNeighborBySwipeDirection (some faces) deltaX deltaY = some f) ∧
      ((∀ f ∈ faces, f.axis = Axis.y) →
        selectCornerNeighborBySwipeDirection (some faces) deltaX deltaY = faces.head?)) := by
  have hsel := selectCorner_eq faces hne deltaX deltaY
  refine ⟨fun dx dy => ⟨rfl, rfl⟩, ?_, ?_, ?_⟩
  · rw [hsel]
    cases hb : isHorizontalSwipe deltaX deltaY
    · rw [if_neg Bool.false_ne_true]
      cases hfind : faces.find? (fun f => !(f.axis == Axis.y)) with
      | some f =>
        exact ⟨f, List.mem_of_find?_eq_some hfind, rfl⟩
      | none =>
        cases faces with
        | nil => exact absurd rfl hne
        | cons a rest => exact ⟨a, List.mem_cons_self a rest, rfl⟩
    · rw [if_pos rfl]
      cases hfind : faces.find? (fun f => f.axis == Axis.y) with
      | some f =>
        exact ⟨f, List.mem_of_find?_eq_some hfind, rfl⟩
      | none =>
        cases faces with
        | nil => exact absurd rfl hne
        | cons a rest => exact ⟨a, List.mem_cons_self a rest, rfl⟩
  · intro hgt
    have hb : isHorizontalSwipe deltaX deltaY = true := (isHorizontalSwipe_iff deltaX deltaY).mpr hgt
    constructor
    · intro f hf
      rw [hsel, if_pos hb, find?_of_firstWith _ _ _ hf]
    · intro hall
      have hnone : faces.find? (fun f => f.axis == Axis.y) = none :=
        List.find?_eq_none.mpr (fun f hf => by simpa using hall f hf)
      rw [hsel, if_pos hb, hnone]
  · intro hgt
    have hb : isHorizontalSwipe deltaX deltaY = false := by
      cases hb' : isHorizontalSwipe deltaX deltaY
      · rfl
      · exact absurd ((isHorizontalSwipe_iff deltaX deltaY).mp hb') hgt
    constructor
    · intro f hf
      rw [hsel, if_neg (by rw [hb]; exact Bool.false_ne_true), find?_of_firstWith _ _ _ hf]
    · intro hall
      have hnone : faces.find? (fun f => !(f.axis == Axis.y)) = none :=
        List.find?_eq_none.mpr (fun f hf => by simpa using hall f hf)
      rw [hsel, if_neg (by rw [hb]; exact Bool.false_ne_true), hnone]

/-- Witness for C8: on the neighbor list of a top-front-right corner click,
a horizontal swipe selects the top-face neighbor. -/
theorem cornerNeighborSelection_witness :
    ∃ f ∈ [FaceSel.mk Axis.y 1, FaceSel.mk Axis.z 1],
      selectCornerNeighborBySwipeDirection (some [FaceSel.mk Axis.y 1, FaceSel.mk Axis.z 1])
        ((10 : Int) : ℚ) ((3 : Int) : ℚ) = some f :=
  (cornerNeighborSelection [FaceSel.mk Axis.y 1, FaceSel.mk Axis.z 1] (by decide)
    ((10 : Int) : ℚ) ((3 : Int) : ℚ)).2.1

/-- Claim C9: for a rendered position lying (within tolerance) on the
clicked face, the classification is determined by how many outer faces the
position touches (1 center, 2 edge, 3 corner), and the returned neighbor
list is the touched-face list with the clicked selector removed, so a
center has 0 neighbors, an edge 1 and a corner 2. -/
theorem classifyCubieTypeNeighbors (ca : Axis) (cl : Int) (p : PosQ)
    (hmem : (⟨ca, cl⟩ : FaceSel) ∈ outerFaces p) :
    ((getCubieTypeAndNeighbors ca cl p).1 = CubieType.center ↔ (outerFaces p).length = 1) ∧
    ((getCubieTypeAndNeighbors ca cl p).1 = CubieType.edge ↔ (outerFaces p).length = 2) ∧
    ((getCubieTypeAndNeighbors ca cl p).1 = CubieType.corner ↔ (outerFaces p).length = 3) ∧
    (getCubieTypeAndNeighbors ca cl p).2 = (outerFaces p).erase ⟨ca, cl⟩ ∧
    (getCubieTypeAndNeighbors ca cl p).2.length = (outerFaces p).length - 1 ∧
    ((getCubieTypeAndNeighbors ca cl p).1 = CubieType.center →
      (getCubieTypeAndNeighbors ca cl p).2.length = 0) ∧
    ((getCubieTypeAndNeighbors ca cl p).1 = CubieType.edge →
      (getCubieTypeAndNeighbors ca cl p).2.length = 1) ∧
    ((getCubieTypeAndNeighbors ca cl p).1 = CubieType.corner →
      (getCubieTypeAndNeighbors ca cl p).2.length = 2) := by
  have hn1 : 1 ≤ (outerFaces p).length := List.length_pos.mpr (List.ne_nil_of_mem hmem)
  have hn3 : (outerFaces p).length ≤ 3 := outerFaces_length_le p
  have htype : (getCubieTypeAndNeighbors ca cl p).1
      = (if (outerFaces p).length = 1 then CubieType.center
         else if (outerFaces p).length = 2 then CubieType.edge
         else CubieType.corner) := rfl
  have hnb : (getCubieTypeAndNeighbors ca cl p).2 = (outerFaces p).erase ⟨ca, cl⟩ :=
    neighborFaces_eq_erase ca cl p
  have hlen : (getCubieTypeAndNeighbors ca cl p).2.length = (outerFaces p).length - 1 := by
    rw [hnb, List.length_erase_of_mem hmem]
  have hcenter : (getCubieTypeAndNeighbors ca cl p).1 = CubieType.center
      ↔ (outerFaces p).length = 1 := by
    rw [htype]
    by_cases h1 : (outerFaces p).length = 1
    · simp [h1]
    · by_cases h2 : (outerFaces p).length = 2 <;> simp [h1, h2]
  have hedge : (getCubieTypeAndNeighbors ca cl p).1 = CubieType.edge
      ↔ (outerFaces p).length = 2 := by
    rw [htype]
    by_cases h1 : (outerFaces p).length = 1
    · simp [h1]
    · by_cases h2 : (outerFaces p).length = 2 <;> simp [h1, h2]
  have hcorner : (getCubieTypeAndNeighbors ca cl p).1 = CubieType.corner
      ↔ (outerFaces p).length = 3 := by
    rw [htype]
    by_cases h1 : (outerFaces p).length = 1
    · simp [h1]
    · by_cases h2 : (outerFaces p).length = 2 <;> simp [h1, h2] <;> omega
  refine ⟨hcenter, hedge, hcorner, hnb, hlen, ?_, ?_, ?_⟩
  · intro h
    have := hcenter.mp h
    omega
  · intro h
    have := hedge.mp h
    omega
  · intro h
    have := hcorner.mp h
    omega

/-- Witness for C9: the corner position (1.05, 1.05, 1.05) clicked on its
top face classifies as a corner with the two side neighbors. -/
theorem classifyCubieTypeNeighbors_witness :
    (getCubieTypeAndNeighbors Axis.y 1 ⟨mkRat 21 20, mkRat 21 20, mkRat 21 20⟩).1
      = CubieType.corner ↔
    (outerFaces ⟨mkRat 21 20, mkRat 21 20, mkRat 21 20⟩).length = 3 :=
  (classifyCubieTypeNeighbors Axis.y 1 ⟨mkRat 21 20, mkRat 21 20, mkRat 21 20⟩ (by decide)).2.2.1

/-- Claim C10: a position touching none of the six outer faces (such as the
hidden central cubie at the origin) classifies as a corner with an empty
neighbor list, because every face count other than 1 or 2 (0 included)
falls into the corner branch. -/
theorem hiddenCenterClassifiesCorner (ca : Axis) (cl : Int) (p : PosQ)
    (h : outerFaces p = []) :
    getCubieTypeAndNeighbors ca cl p = (CubieType.corner, []) ∧
    getCubieTypeAndNeighbors ca cl ⟨0, 0, 0⟩ = (CubieType.corner, []) := by
  constructor
  · unfold getCubieTypeAndNeighbors
    rw [h]
    rfl
  · have h0 : outerFaces ⟨0, 0, 0⟩ = [] := by decide
    unfold getCubieTypeAndNeighbors
    rw [h0]
    rfl

/-- Witness for C10 at the origin position. -/
theorem hiddenCenterClassifiesCorner_witness :
    getCubieTypeAndNeighbors Axis.x 1 ⟨0, 0, 0⟩ = (CubieType.corner, []) :=
  (hiddenCenterClassifiesCorner Axis.x 1 ⟨0, 0, 0⟩ (by decide)).1
